import Mathlib

/-!
Verification of the tabular Q-learning "algae collector" demo (`main.py`):
a shallow embedding of the `AlgaeEnvironment` class (nearest-algae scan,
state discretization, stepping with boundary clamping, consumption and
reward shaping) and of the `ImprovedQLearningAgent` class (Bellman update
and exploration decay), followed by theorems about the embedded code.

Real-valued Python floats are modelled as real numbers, Python lists as
Lean lists, and `int()` truncation as floor/ceiling toward zero.
-/

namespace ThinkingBlue

noncomputable section
open Classical

/-- Environment state of `AlgaeEnvironment`: field dimensions (`width`,
`height`, defaults 100), the speed parameter `max_speed` (default 3), the
agent position, the list of remaining algae positions, and the episode
counters `score`, `steps` and `total_reward`. -/
structure Env where
  width : ℝ
  height : ℝ
  max_speed : ℝ
  agent_x : ℝ
  agent_y : ℝ
  algae : List (ℝ × ℝ)
  score : ℕ
  steps : ℕ
  total_reward : ℝ

/-- Euclidean distance `math.sqrt((x1-x2)**2 + (y1-y2)**2)` used throughout
`AlgaeEnvironment`. -/
def distR (x1 y1 x2 y2 : ℝ) : ℝ :=
  Real.sqrt ((x1 - x2) ^ 2 + (y1 - y2) ^ 2)

/-- Loop of `get_nearest_algae_info`: scans the algae list keeping the
strictly smallest distance seen so far together with its index.  Python
initialises `min_dist = float(inf)` so the head of the list always becomes
the first candidate; the loop is therefore started (by the caller) with the
head distance as the current best and index 0. -/
def nearestLoop (ax ay : ℝ) : List (ℝ × ℝ) → ℕ → ℝ → ℕ → ℝ × ℕ
  | [], _, best, bidx => (best, bidx)
  | p :: rest, i, best, bidx =>
    if distR ax ay p.1 p.2 < best then
      nearestLoop ax ay rest (i + 1) (distR ax ay p.1 p.2) i
    else
      nearestLoop ax ay rest (i + 1) best bidx

/-- `AlgaeEnvironment.get_nearest_algae_info`: returns
`(min_dist, nearest_index, dx/min_dist, dy/min_dist)` for the nearest
algae; with no algae it returns `(width + height, None, 0, 0)`. -/
def get_nearest_algae_info (e : Env) : ℝ × Option ℕ × ℝ × ℝ :=
  match e.algae with
  | [] => (e.width + e.height, none, 0, 0)
  | p :: rest =>
    let r := nearestLoop e.agent_x e.agent_y rest 1 (distR e.agent_x e.agent_y p.1 p.2) 0
    let q := e.algae.getD r.2 (0, 0)
    (r.1, some r.2, (q.1 - e.agent_x) / r.1, (q.2 - e.agent_y) / r.1)

/-- Python `int()` truncation toward zero on a real value. -/
def pyInt (x : ℝ) : ℤ := if 0 ≤ x then ⌊x⌋ else ⌈x⌉

/-- Distance bin of `get_state`: `int(min(distance/(max_dist*0.7), 1.0) * 7)`
with `max_dist = sqrt(width**2 + height**2)`. -/
def distBin (e : Env) : ℤ :=
  pyInt (min ((get_nearest_algae_info e).1 / (Real.sqrt (e.width ^ 2 + e.height ^ 2) * 0.7)) 1 * 7)

/-- Direction-x bin of `get_state`: `int((dx+1)*2)` clamped to `[0,4]`. -/
def dxBin (e : Env) : ℤ :=
  max 0 (min 4 (pyInt (((get_nearest_algae_info e).2.2.1 + 1) * 2)))

/-- Direction-y bin of `get_state`: `int((dy+1)*2)` clamped to `[0,4]`. -/
def dyBin (e : Env) : ℤ :=
  max 0 (min 4 (pyInt (((get_nearest_algae_info e).2.2.2 + 1) * 2)))

/-- `AlgaeEnvironment.get_state`: the combined state index
`min(dist_bin*25 + dx_bin*5 + dy_bin, 199)`. -/
def get_state (e : Env) : ℤ :=
  min (distBin e * 25 + dxBin e * 5 + dyBin e) 199

/-- The 8 movement vectors of `step` (N, NE, E, SE, S, SW, W, NW); the
diagonals use the literal factor `0.707` from the source. -/
def directions (ms : ℝ) : List (ℝ × ℝ) :=
  [(0, ms), (ms * 0.707, ms * 0.707), (ms, 0), (ms * 0.707, -(ms * 0.707)),
   (0, -ms), (-(ms * 0.707), -(ms * 0.707)), (-ms, 0), (-(ms * 0.707), ms * 0.707)]

/-- In-range indexing into `directions`. -/
def dirOf (ms : ℝ) (a : Fin 8) : ℝ × ℝ := (directions ms).getD a.val (0, 0)

/-- Boundary clamping of the agent move:
`(max(3, min(width-3, x+dx)), max(3, min(height-3, y+dy)))`. -/
def clampPos (e : Env) (d : ℝ × ℝ) : ℝ × ℝ :=
  (max 3 (min (e.width - 3) (e.agent_x + d.1)),
   max 3 (min (e.height - 3) (e.agent_y + d.2)))

/-- The algae lying strictly within the consumption radius (distance `< 5`)
of position `pos`; these are exactly the entries whose indices `step`
collects in `eaten_algae` and deletes. -/
def eatenAt (e : Env) (pos : ℝ × ℝ) : List (ℝ × ℝ) :=
  e.algae.filter fun p => decide (distR pos.1 pos.2 p.1 p.2 < 5)

/-- New (clamped) agent position after applying action `a`. -/
def newPos (e : Env) (a : Fin 8) : ℝ × ℝ := clampPos e (dirOf e.max_speed a)

/-- The algae consumed by `step e a`. -/
def eatenList (e : Env) (a : Fin 8) : List (ℝ × ℝ) := eatenAt e (newPos e a)

/-- Return value of `step`: Python returns `(state, reward, done)` and
mutates `self`; the mutated environment is bundled alongside. -/
structure StepOut where
  env : Env
  state : ℤ
  reward : ℝ
  done : Bool

/-- Body of `AlgaeEnvironment.step` once the direction vector has been
selected: records the previous nearest distance, clamps the move, consumes
every algae within distance 5 of the new position (100 reward each, one
score point each), applies reward shaping
`(prev_dist - new_dist)*0.5 - 0.1` when nothing was eaten and algae remain,
increments the step counter, accumulates the reward, and reports
`done = (no algae left) or (steps > 300)`. -/
def stepWith (e : Env) (d : ℝ × ℝ) : StepOut :=
  let prev_distance := (get_nearest_algae_info e).1
  let pos := clampPos e d
  let eaten := eatenAt e pos
  let algae2 := e.algae.filter fun p => !(decide (distR pos.1 pos.2 p.1 p.2 < 5))
  let e2 : Env := ⟨e.width, e.height, e.max_speed, pos.1, pos.2, algae2,
    e.score + eaten.length, e.steps + 1, e.total_reward⟩
  let reward : ℝ :=
    if eaten = [] ∧ algae2 ≠ [] then
      100 * (eaten.length : ℝ) + (prev_distance - (get_nearest_algae_info e2).1) * 0.5 - 0.1
    else 100 * (eaten.length : ℝ)
  let e3 : Env := ⟨e.width, e.height, e.max_speed, pos.1, pos.2, algae2,
    e.score + eaten.length, e.steps + 1, e.total_reward + reward⟩
  ⟨e3, get_state e3, reward, decide (algae2 = []) || decide (300 < e.steps + 1)⟩

/-- `AlgaeEnvironment.step` with an in-range action index. -/
def step (e : Env) (a : Fin 8) : StepOut := stepWith e (dirOf e.max_speed a)

/-- Python list indexing semantics: `l[i]` accepts negative indices down to
`-len(l)` (meaning `l[len(l)+i]`) and raises `IndexError` (modelled as
`none`) outside `[-len(l), len(l))`. -/
def pyGet? {α : Type} (l : List α) (i : ℤ) : Option α :=
  if 0 ≤ i then l[i.toNat]?
  else if 0 ≤ (l.length : ℤ) + i then l[((l.length : ℤ) + i).toNat]?
  else none

/-- `step` called with a raw integer action index, exactly as Python
evaluates `directions[action]`. -/
def stepZ (e : Env) (i : ℤ) : Option StepOut :=
  (pyGet? (directions e.max_speed) i).map fun d => stepWith e d

/-- `ImprovedQLearningAgent` with the default table shape 200 x 8
(`state_size=200`, `action_size=8`): the hyperparameters fixed at
construction and the dense Q-table. -/
structure Agent where
  learning_rate : ℝ
  discount_factor : ℝ
  epsilon : ℝ
  epsilon_decay : ℝ
  epsilon_min : ℝ
  q_table : Fin 200 → Fin 8 → ℝ

/-- `np.max(self.q_table[next_state])`: the maximum of one table row. -/
def rowMax (row : Fin 8 → ℝ) : ℝ := Finset.univ.sup' Finset.univ_nonempty row

/-- `ImprovedQLearningAgent.learn`: the one-step Q-learning update followed
by the guarded epsilon decay. -/
def Agent.learn (ag : Agent) (s : Fin 200) (a : Fin 8) (r : ℝ) (s2 : Fin 200) (d : Bool) : Agent :=
  let target := if d then r else r + ag.discount_factor * rowMax (ag.q_table s2)
  let current_q := ag.q_table s a
  let qt : Fin 200 → Fin 8 → ℝ := fun s3 a3 =>
    if s3 = s ∧ a3 = a then current_q + ag.learning_rate * (target - current_q)
    else ag.q_table s3 a3
  let eps := if ag.epsilon_min < ag.epsilon then max ag.epsilon_min (ag.epsilon * ag.epsilon_decay)
    else ag.epsilon
  ⟨ag.learning_rate, ag.discount_factor, eps, ag.epsilon_decay, ag.epsilon_min, qt⟩

/-! ### Supporting lemmas -/

/-- Distances are square roots, hence nonnegative. -/
theorem distR_nonneg (x1 y1 x2 y2 : ℝ) : 0 ≤ distR x1 y1 x2 y2 := Real.sqrt_nonneg _

/-- Splitting a list by a Boolean predicate preserves the total length. -/
theorem filter_length_split {α : Type} (f : α → Bool) (l : List α) :
    (l.filter f).length + (l.filter fun x => !(f x)).length = l.length := by
  induction l with
  | nil => rfl
  | cons x xs ih => cases h : f x <;> simp [List.filter_cons, h] <;> omega

/-- The running minimum of the nearest-algae scan never exceeds its
starting value. -/
theorem nearestLoop_fst_le (ax ay : ℝ) (l : List (ℝ × ℝ)) (i : ℕ) (best : ℝ) (b : ℕ) :
    (nearestLoop ax ay l i best b).1 ≤ best := by
  induction l generalizing i best b with
  | nil => exact le_refl _
  | cons p rest ih =>
    simp only [nearestLoop]
    split_ifs with h
    · exact (ih _ _ _).trans h.le
    · exact ih _ _ _

/-- The running minimum of the nearest-algae scan is a lower bound on the
distance to every scanned algae. -/
theorem nearestLoop_le_mem (ax ay : ℝ) (l : List (ℝ × ℝ)) (i : ℕ) (best : ℝ) (b : ℕ) :
    ∀ p ∈ l, (nearestLoop ax ay l i best b).1 ≤ distR ax ay p.1 p.2 := by
  induction l generalizing i best b with
  | nil => intro p hp; cases hp
  | cons q rest ih =>
    intro p hp
    simp only [nearestLoop]
    rcases List.mem_cons.mp hp with h1 | h1
    · subst h1
      split_ifs with h
      · exact nearestLoop_fst_le ax ay rest (i + 1) _ i
      · exact (nearestLoop_fst_le ax ay rest (i + 1) best b).trans (not_lt.mp h)
    · split_ifs with h
      · exact ih _ _ _ p h1
      · exact ih _ _ _ p h1

/-- The nearest-algae scan returns either its starting value or the distance
to one of the scanned algae. -/
theorem nearestLoop_attained (ax ay : ℝ) (l : List (ℝ × ℝ)) (i : ℕ) (best : ℝ) (b : ℕ) :
    (nearestLoop ax ay l i best b).1 = best ∨
      ∃ p ∈ l, (nearestLoop ax ay l i best b).1 = distR ax ay p.1 p.2 := by
  induction l generalizing i best b with
  | nil => exact Or.inl rfl
  | cons q rest ih =>
    simp only [nearestLoop]
    split_ifs with h
    · rcases ih (i + 1) (distR ax ay q.1 q.2) i with h1 | ⟨p, hp, h2⟩
      · exact Or.inr ⟨q, List.mem_cons_self q rest, h1⟩
      · exact Or.inr ⟨p, List.mem_cons_of_mem _ hp, h2⟩
    · rcases ih (i + 1) best b with h1 | ⟨p, hp, h2⟩
      · exact Or.inl h1
      · exact Or.inr ⟨p, List.mem_cons_of_mem _ hp, h2⟩

/-- The nearest-algae scan stays nonnegative when started from a
nonnegative value. -/
theorem nearestLoop_nonneg (ax ay : ℝ) (l : List (ℝ × ℝ)) :
    ∀ (i : ℕ) (best : ℝ) (b : ℕ), 0 ≤ best → 0 ≤ (nearestLoop ax ay l i best b).1 := by
  induction l with
  | nil => intro i best b h; exact h
  | cons q rest ih =>
    intro i best b h
    simp only [nearestLoop]
    split_ifs with hq
    · exact ih _ _ _ (distR_nonneg _ _ _ _)
    · exact ih _ _ _ h

/-- With at least one algae, the reported nearest distance is nonnegative. -/
theorem nearest_fst_nonneg (e : Env) (h : e.algae ≠ []) : 0 ≤ (get_nearest_algae_info e).1 := by
  obtain ⟨p, rest, hpr⟩ : ∃ p rest, e.algae = p :: rest := by
    cases hl : e.algae with
    | nil => exact absurd hl h
    | cons p rest => exact ⟨p, rest, rfl⟩
  simp only [get_nearest_algae_info, hpr]
  exact nearestLoop_nonneg _ _ _ _ _ _ (distR_nonneg _ _ _ _)

/-- The reported nearest distance is a lower bound on the distance to every
algae. -/
theorem nearest_le_mem (e : Env) :
    ∀ p ∈ e.algae, (get_nearest_algae_info e).1 ≤ distR e.agent_x e.agent_y p.1 p.2 := by
  intro p hp
  obtain ⟨q, rest, hpr⟩ : ∃ q rest, e.algae = q :: rest := by
    cases hl : e.algae with
    | nil => rw [hl] at hp; cases hp
    | cons q rest => exact ⟨q, rest, rfl⟩
  rw [hpr] at hp
  simp only [get_nearest_algae_info, hpr]
  rcases List.mem_cons.mp hp with h1 | h1
  · subst h1; exact nearestLoop_fst_le _ _ _ _ _ _
  · exact nearestLoop_le_mem _ _ _ _ _ _ p h1

/-- With at least one algae, the reported nearest distance is attained by
some algae. -/
theorem nearest_attained (e : Env) (h : e.algae ≠ []) :
    ∃ p ∈ e.algae, (get_nearest_algae_info e).1 = distR e.agent_x e.agent_y p.1 p.2 := by
  obtain ⟨q, rest, hpr⟩ : ∃ q rest, e.algae = q :: rest := by
    cases hl : e.algae with
    | nil => exact absurd hl h
    | cons q rest => exact ⟨q, rest, rfl⟩
  simp only [get_nearest_algae_info, hpr]
  rcases nearestLoop_attained e.agent_x e.agent_y rest 1 (distR e.agent_x e.agent_y q.1 q.2) 0 with
    h1 | ⟨p, hp, h2⟩
  · exact ⟨q, List.mem_cons_self q rest, h1⟩
  · exact ⟨p, List.mem_cons_of_mem _ hp, h2⟩

/-- Python truncation of a nonnegative real is its floor. -/
theorem pyInt_nonneg_eq (x : ℝ) (h : 0 ≤ x) : pyInt x = ⌊x⌋ := if_pos h

/-- Python truncation of a nonnegative real is nonnegative. -/
theorem pyInt_nonneg (x : ℝ) (h : 0 ≤ x) : 0 ≤ pyInt x := by
  rw [pyInt_nonneg_eq x h]
  exact Int.le_floor.mpr (by exact_mod_cast h)

/-- Python truncation of a nonnegative real respects integer upper bounds. -/
theorem pyInt_le (x : ℝ) (n : ℤ) (h0 : 0 ≤ x) (h : x ≤ (n : ℝ)) : pyInt x ≤ n := by
  rw [pyInt_nonneg_eq x h0]
  exact (Int.floor_mono h).trans_eq (Int.floor_intCast n)

/-! ### Claim theorems: agent -/

/-- C1: a call to `learn` sets `value_table[state, action]` to
`old + learning_rate * (target - old)` with
`target = reward` when `done` and
`target = reward + discount_factor * max over a2 of value_table[next_state, a2]`
otherwise (`rowMax` is the exact maximum of the row: an upper bound that is
attained), and no other table entry changes. -/
theorem c1_learn_update (ag : Agent) (s : Fin 200) (a : Fin 8) (r : ℝ) (s2 : Fin 200) (d : Bool) :
    ((ag.learn s a r s2 d).q_table s a =
      ag.q_table s a + ag.learning_rate *
        ((if d then r else r + ag.discount_factor * rowMax (ag.q_table s2)) - ag.q_table s a))
    ∧ (∀ a2 : Fin 8, ag.q_table s2 a2 ≤ rowMax (ag.q_table s2))
    ∧ (∃ a2 : Fin 8, rowMax (ag.q_table s2) = ag.q_table s2 a2)
    ∧ (∀ (s3 : Fin 200) (a3 : Fin 8), ¬(s3 = s ∧ a3 = a) →
        (ag.learn s a r s2 d).q_table s3 a3 = ag.q_table s3 a3) := by
  refine ⟨?_, ?_, ?_, ?_⟩
  · simp [Agent.learn]
  · intro a2; exact Finset.le_sup' _ (Finset.mem_univ a2)
  · obtain ⟨b, _, hb⟩ := Finset.exists_mem_eq_sup' Finset.univ_nonempty (ag.q_table s2)
    exact ⟨b, hb⟩
  · intro s3 a3 h; simp [Agent.learn, h]

/-- C7: whenever `exploration_min <= epsilon` (and the decay factor is at
most 1, as configured), `learn` leaves `epsilon` equal to
`max(epsilon_min, epsilon * epsilon_decay)`; in particular `epsilon` never
falls below `epsilon_min` and never increases. -/
theorem c7_epsilon_decay (ag : Agent) (s : Fin 200) (a : Fin 8) (r : ℝ) (s2 : Fin 200) (d : Bool)
    (h0 : 0 ≤ ag.epsilon_min) (h1 : ag.epsilon_min ≤ ag.epsilon) (h2 : ag.epsilon_decay ≤ 1) :
    (ag.learn s a r s2 d).epsilon = max ag.epsilon_min (ag.epsilon * ag.epsilon_decay)
    ∧ ag.epsilon_min ≤ (ag.learn s a r s2 d).epsilon
    ∧ (ag.learn s a r s2 d).epsilon ≤ ag.epsilon := by
  have heps : (ag.learn s a r s2 d).epsilon =
      if ag.epsilon_min < ag.epsilon then max ag.epsilon_min (ag.epsilon * ag.epsilon_decay)
      else ag.epsilon := rfl
  have hmul : ag.epsilon * ag.epsilon_decay ≤ ag.epsilon :=
    mul_le_of_le_one_right (h0.trans h1) h2
  by_cases hc : ag.epsilon_min < ag.epsilon
  · rw [heps, if_pos hc]
    exact ⟨rfl, le_max_left _ _, max_le h1 hmul⟩
  · have heq : ag.epsilon = ag.epsilon_min := le_antisymm (not_lt.mp hc) h1
    rw [heps, if_neg hc]
    refine ⟨?_, le_of_eq heq.symm, le_refl _⟩
    rw [heq]
    exact (max_eq_left (mul_le_of_le_one_right h0 h2)).symm

/-- Agent built with the constructor defaults of `ImprovedQLearningAgent`
(`learning_rate=0.3`, `discount_factor=0.99`, `epsilon=0.9`,
`epsilon_decay=0.996`, `epsilon_min=0.05`) and an all-zero table. -/
def ag0 : Agent := ⟨0.3, 0.99, 0.9, 0.996, 0.05, fun _ _ => 0⟩

/-- Witness for C7 at the default hyperparameters. -/
theorem c7_epsilon_decay_witness :
    (0 ≤ ag0.epsilon_min ∧ ag0.epsilon_min ≤ ag0.epsilon ∧ ag0.epsilon_decay ≤ 1)
    ∧ ((ag0.learn 0 0 1 0 false).epsilon = max ag0.epsilon_min (ag0.epsilon * ag0.epsilon_decay)
      ∧ ag0.epsilon_min ≤ (ag0.learn 0 0 1 0 false).epsilon
      ∧ (ag0.learn 0 0 1 0 false).epsilon ≤ ag0.epsilon) :=
  ⟨⟨by norm_num [ag0], by norm_num [ag0], by norm_num [ag0]⟩,
   c7_epsilon_decay ag0 0 0 1 0 false (by norm_num [ag0]) (by norm_num [ag0]) (by norm_num [ag0])⟩

/-- Witness for C1 on the default agent: the updated entry and an untouched
entry. -/
theorem c1_learn_update_witness :
    ¬((1 : Fin 200) = 0 ∧ (1 : Fin 8) = 0)
    ∧ (ag0.learn 0 0 1 0 false).q_table 0 0 =
        ag0.q_table 0 0 + ag0.learning_rate *
          ((if false then (1 : ℝ)
            else 1 + ag0.discount_factor * rowMax (ag0.q_table 0)) - ag0.q_table 0 0)
    ∧ (ag0.learn 0 0 1 0 false).q_table 1 1 = ag0.q_table 1 1 :=
  ⟨by decide, (c1_learn_update ag0 0 0 1 0 false).1,
   (c1_learn_update ag0 0 0 1 0 false).2.2.2 1 1 (by decide)⟩

/-! ### Claim theorems: environment -/

/-- C2: the `done` flag returned by `step` is true exactly when, after the
step, no algae remain or the (incremented) step counter exceeds 300; the
step counter after the call is the old counter plus one. -/
theorem c2_done_iff (e : Env) (a : Fin 8) :
    ((step e a).done = true ↔ ((step e a).env.algae = [] ∨ 300 < (step e a).env.steps))
    ∧ (step e a).env.steps = e.steps + 1 := by
  constructor
  · simp [step, stepWith]
  · rfl

/-- C8: whenever the field is at least 6 units wide and high (the source
uses 100 x 100), the agent position after `step` satisfies
`3 <= x <= width-3` and `3 <= y <= height-3` for every action and every
starting position. -/
theorem c8_position_clamped (e : Env) (a : Fin 8) (hw : 6 ≤ e.width) (hh : 6 ≤ e.height) :
    (3 ≤ (step e a).env.agent_x ∧ (step e a).env.agent_x ≤ e.width - 3)
    ∧ (3 ≤ (step e a).env.agent_y ∧ (step e a).env.agent_y ≤ e.height - 3) := by
  have hx : (step e a).env.agent_x
      = max 3 (min (e.width - 3) (e.agent_x + (dirOf e.max_speed a).1)) := rfl
  have hy : (step e a).env.agent_y
      = max 3 (min (e.height - 3) (e.agent_y + (dirOf e.max_speed a).2)) := rfl
  rw [hx, hy]
  exact ⟨⟨le_max_left _ _, max_le (by linarith) (min_le_left _ _)⟩,
         ⟨le_max_left _ _, max_le (by linarith) (min_le_left _ _)⟩⟩

/-- Concrete environment: 100 x 100 field, agent at (50, 50), one algae at
(54, 50). -/
def env3 : Env := ⟨100, 100, 3, 50, 50, [(54, 50)], 0, 0, 0⟩

/-- Witness for C8 on `env3` with action 2 (East). -/
theorem c8_position_clamped_witness :
    (6 ≤ env3.width ∧ 6 ≤ env3.height)
    ∧ ((3 ≤ (step env3 2).env.agent_x ∧ (step env3 2).env.agent_x ≤ env3.width - 3)
      ∧ (3 ≤ (step env3 2).env.agent_y ∧ (step env3 2).env.agent_y ≤ env3.height - 3)) :=
  ⟨⟨by norm_num [env3], by norm_num [env3]⟩,
   c8_position_clamped env3 2 (by norm_num [env3]) (by norm_num [env3])⟩

/-- Witness for C2 on `env3` with action 2. -/
theorem c2_done_iff_witness :
    ((step env3 2).done = true ↔ ((step env3 2).env.algae = [] ∨ 300 < (step env3 2).env.steps))
    ∧ (step env3 2).env.steps = env3.steps + 1 :=
  c2_done_iff env3 2

/-- C5: with at least one algae remaining, `get_state` returns
`dist_bin*25 + dx_bin*5 + dy_bin` clamped to at most 199, and the result
lies in `[0, 199]`. -/
theorem c5_state_range (e : Env) (h : e.algae ≠ []) :
    get_state e = min (distBin e * 25 + dxBin e * 5 + dyBin e) 199
    ∧ 0 ≤ get_state e ∧ get_state e ≤ 199 := by
  have hd0 : 0 ≤ (get_nearest_algae_info e).1 := nearest_fst_nonneg e h
  have hq : 0 ≤ (get_nearest_algae_info e).1
      / (Real.sqrt (e.width ^ 2 + e.height ^ 2) * 0.7) :=
    div_nonneg hd0 (by positivity)
  have hmin : 0 ≤ min ((get_nearest_algae_info e).1
      / (Real.sqrt (e.width ^ 2 + e.height ^ 2) * 0.7)) 1 := le_min hq zero_le_one
  have harg : 0 ≤ min ((get_nearest_algae_info e).1
      / (Real.sqrt (e.width ^ 2 + e.height ^ 2) * 0.7)) 1 * 7 :=
    mul_nonneg hmin (by norm_num)
  have hb0 : 0 ≤ distBin e := pyInt_nonneg _ harg
  have hb7 : distBin e ≤ 7 := by
    refine pyInt_le _ 7 harg ?_
    have h1 : min ((get_nearest_algae_info e).1
        / (Real.sqrt (e.width ^ 2 + e.height ^ 2) * 0.7)) 1 ≤ 1 := min_le_right _ _
    push_cast
    linarith
  have hx0 : 0 ≤ dxBin e := le_max_left _ _
  have hx4 : dxBin e ≤ 4 := max_le (by norm_num) (min_le_left _ _)
  have hy0 : 0 ≤ dyBin e := le_max_left _ _
  have hy4 : dyBin e ≤ 4 := max_le (by norm_num) (min_le_left _ _)
  have hsum : 0 ≤ distBin e * 25 + dxBin e * 5 + dyBin e := by linarith
  exact ⟨rfl, le_min hsum (by norm_num), min_le_right _ _⟩

/-- Witness for C5 on `env3`. -/
theorem c5_state_range_witness :
    env3.algae ≠ []
    ∧ (get_state env3 = min (distBin env3 * 25 + dxBin env3 * 5 + dyBin env3) 199
      ∧ 0 ≤ get_state env3 ∧ get_state env3 ≤ 199) :=
  ⟨by simp [env3], c5_state_range env3 (by simp [env3])⟩

/-- C6: with no algae left (and positive field dimensions), `get_state`
returns the fixed sentinel state `187 = 7*25 + 2*5 + 2` (maximal distance
bin, both direction components binned as 0), independently of the agent
position. -/
theorem c6_empty_sentinel (e : Env) (h : e.algae = []) (hw : 0 < e.width) (hh : 0 < e.height) :
    get_state e = 187 := by
  have hinfo : get_nearest_algae_info e = (e.width + e.height, none, 0, 0) := by
    simp only [get_nearest_algae_info, h]
  have hM0 : 0 < Real.sqrt (e.width ^ 2 + e.height ^ 2) := Real.sqrt_pos.mpr (by positivity)
  have hMle : Real.sqrt (e.width ^ 2 + e.height ^ 2) ≤ e.width + e.height := by
    have h1 : e.width ^ 2 + e.height ^ 2 ≤ (e.width + e.height) ^ 2 := by nlinarith
    have h2 := Real.sqrt_le_sqrt h1
    rwa [Real.sqrt_sq (by positivity)] at h2
  have hratio : 1 ≤ (e.width + e.height)
      / (Real.sqrt (e.width ^ 2 + e.height ^ 2) * 0.7) := by
    rw [le_div_iff₀ (by positivity)]
    nlinarith
  have hdb : distBin e = 7 := by
    unfold distBin
    rw [hinfo]
    show pyInt (min ((e.width + e.height)
      / (Real.sqrt (e.width ^ 2 + e.height ^ 2) * 0.7)) 1 * 7) = 7
    rw [min_eq_right hratio,
      show (1 : ℝ) * 7 = ((7 : ℤ) : ℝ) by norm_num,
      pyInt_nonneg_eq _ (by norm_num), Int.floor_intCast]
  have hdx : dxBin e = 2 := by
    unfold dxBin
    rw [hinfo]
    show max 0 (min 4 (pyInt (((0 : ℝ) + 1) * 2))) = 2
    rw [show ((0 : ℝ) + 1) * 2 = ((2 : ℤ) : ℝ) by norm_num,
      pyInt_nonneg_eq _ (by norm_num), Int.floor_intCast]
    decide
  have hdy : dyBin e = 2 := by
    unfold dyBin
    rw [hinfo]
    show max 0 (min 4 (pyInt (((0 : ℝ) + 1) * 2))) = 2
    rw [show ((0 : ℝ) + 1) * 2 = ((2 : ℤ) : ℝ) by norm_num,
      pyInt_nonneg_eq _ (by norm_num), Int.floor_intCast]
    decide
  unfold get_state
  rw [hdb, hdx, hdy]
  decide

/-- Concrete environment with no algae. -/
def env6 : Env := ⟨100, 100, 3, 20, 80, [], 0, 0, 0⟩

/-- Witness for C6 on `env6`. -/
theorem c6_empty_sentinel_witness :
    (env6.algae = [] ∧ 0 < env6.width ∧ 0 < env6.height) ∧ get_state env6 = 187 :=
  ⟨⟨rfl, by norm_num [env6], by norm_num [env6]⟩,
   c6_empty_sentinel env6 rfl (by norm_num [env6]) (by norm_num [env6])⟩

/-! ### Step decomposition lemmas -/

/-- The algae surviving `step e a`: those not strictly within distance 5 of
the new agent position. -/
def algaeAfter (e : Env) (a : Fin 8) : List (ℝ × ℝ) :=
  e.algae.filter fun p => !(decide (distR (newPos e a).1 (newPos e a).2 p.1 p.2 < 5))

/-- The environment as `step e a` leaves it, except for the episode reward
accumulator. -/
def envAfter (e : Env) (a : Fin 8) : Env :=
  ⟨e.width, e.height, e.max_speed, (newPos e a).1, (newPos e a).2, algaeAfter e a,
   e.score + (eatenList e a).length, e.steps + 1, e.total_reward⟩

/-- The algae list stored by `step`. -/
theorem step_env_algae (e : Env) (a : Fin 8) : (step e a).env.algae = algaeAfter e a := rfl

/-- `get_nearest_algae_info` only reads the field dimensions, the agent
position and the algae list. -/
theorem get_nearest_congr (e1 e2 : Env) (hw : e1.width = e2.width) (hh : e1.height = e2.height)
    (hx : e1.agent_x = e2.agent_x) (hy : e1.agent_y = e2.agent_y) (ha : e1.algae = e2.algae) :
    get_nearest_algae_info e1 = get_nearest_algae_info e2 := by
  unfold get_nearest_algae_info
  rw [hw, hh, hx, hy, ha]

/-- The reward returned by `step`: 100 per eaten algae, plus the shaping
term `(prev_dist - new_dist)*0.5 - 0.1` exactly when nothing was eaten and
algae remain. -/
theorem step_reward_eq (e : Env) (a : Fin 8) :
    (step e a).reward =
      if eatenList e a = [] ∧ algaeAfter e a ≠ [] then
        100 * ((eatenList e a).length : ℝ)
          + ((get_nearest_algae_info e).1 - (get_nearest_algae_info (envAfter e a)).1) * 0.5 - 0.1
      else 100 * ((eatenList e a).length : ℝ) := rfl

/-! ### Claim theorems: consumption and shaping -/

/-- C3: when exactly one algae lies within the consumption radius of 5
units of the clamped new position, `step` removes exactly one algae,
increments the score by one, and returns exactly the flat reward 100;
every algae within the radius is removed from the list. -/
theorem c3_eat_one (e : Env) (a : Fin 8) (h : (eatenList e a).length = 1) :
    (step e a).env.algae.length = e.algae.length - 1
    ∧ (step e a).env.score = e.score + 1
    ∧ (step e a).reward = 100
    ∧ ∀ p ∈ eatenList e a, p ∉ (step e a).env.algae := by
  have hsplit : (eatenList e a).length + (algaeAfter e a).length = e.algae.length :=
    filter_length_split _ _
  have hne : eatenList e a ≠ [] := by
    intro hnil
    rw [hnil] at h
    exact absurd h (by norm_num)
  refine ⟨?_, ?_, ?_, ?_⟩
  · rw [step_env_algae]
    omega
  · have hscore : (step e a).env.score = e.score + (eatenList e a).length := rfl
    rw [hscore, h]
  · rw [step_reward_eq, if_neg (fun hc => hne hc.1), h]
    norm_num
  · intro p hp hmem
    rw [step_env_algae] at hmem
    unfold algaeAfter at hmem
    unfold eatenList eatenAt at hp
    simp only [List.mem_filter, Bool.not_eq_true', decide_eq_false_iff_not,
      decide_eq_true_eq] at hp hmem
    exact hmem.2 hp.2

/-- The clamped move of `env3` under action 2 (East). -/
theorem env3_newPos : newPos env3 2 = (53, 50) := by
  show (max 3 (min ((100 : ℝ) - 3) (50 + 3)), max 3 (min ((100 : ℝ) - 3) (50 + 0)))
      = ((53 : ℝ), (50 : ℝ))
  rw [Prod.mk.injEq]
  constructor
  · rw [show (100 : ℝ) - 3 = 97 by norm_num, show (50 : ℝ) + 3 = 53 by norm_num,
      min_eq_right (by norm_num), max_eq_right (by norm_num)]
  · rw [show (100 : ℝ) - 3 = 97 by norm_num, show (50 : ℝ) + 0 = 50 by norm_num,
      min_eq_right (by norm_num), max_eq_right (by norm_num)]

/-- On `env3`, action 2 brings the agent within the consumption radius of
the single algae. -/
theorem env3_eaten_len : (eatenList env3 2).length = 1 := by
  have hlt : distR 53 50 54 50 < 5 := by
    unfold distR
    rw [Real.sqrt_lt' (by norm_num : (0 : ℝ) < 5)]
    norm_num
  have heat : eatenList env3 2 = [((54 : ℝ), (50 : ℝ))] := by
    unfold eatenList eatenAt
    rw [env3_newPos, show env3.algae = [((54 : ℝ), (50 : ℝ))] from rfl]
    simp only [List.filter_cons, List.filter_nil]
    rw [if_pos (by simp only [decide_eq_true_eq]; exact hlt)]
  rw [heat]
  rfl

/-- Witness for C3 on `env3` with action 2. -/
theorem c3_eat_one_witness :
    (eatenList env3 2).length = 1
    ∧ ((step env3 2).env.algae.length = env3.algae.length - 1
      ∧ (step env3 2).env.score = env3.score + 1
      ∧ (step env3 2).reward = 100
      ∧ ∀ p ∈ eatenList env3 2, p ∉ (step env3 2).env.algae) :=
  ⟨env3_eaten_len, c3_eat_one env3 2 env3_eaten_len⟩

/-- C4: when no algae is consumed and algae remain afterwards, the returned
reward is exactly `0.5 * (previous nearest distance - new nearest distance)
- 0.1`; moreover the reported previous nearest distance is a genuine
minimum over the algae (a lower bound that is attained). -/
theorem c4_shaping_reward (e : Env) (a : Fin 8)
    (h1 : eatenList e a = []) (h2 : (step e a).env.algae ≠ []) :
    (step e a).reward
      = 0.5 * ((get_nearest_algae_info e).1 - (get_nearest_algae_info (step e a).env).1) - 0.1
    ∧ (∀ p ∈ e.algae, (get_nearest_algae_info e).1 ≤ distR e.agent_x e.agent_y p.1 p.2)
    ∧ (∃ p ∈ e.algae, (get_nearest_algae_info e).1 = distR e.agent_x e.agent_y p.1 p.2) := by
  have halgne : e.algae ≠ [] := by
    intro hnil
    apply h2
    rw [step_env_algae]
    unfold algaeAfter
    rw [hnil]
    rfl
  have hbridge : get_nearest_algae_info (step e a).env = get_nearest_algae_info (envAfter e a) :=
    get_nearest_congr _ _ rfl rfl rfl rfl rfl
  refine ⟨?_, nearest_le_mem e, nearest_attained e halgne⟩
  rw [step_reward_eq, if_pos ⟨h1, h2⟩, h1, hbridge]
  norm_num
  ring

/-- Concrete environment: 100 x 100 field, agent at (50, 50), one algae far
away at (90, 50). -/
def env4 : Env := ⟨100, 100, 3, 50, 50, [(90, 50)], 0, 0, 0⟩

/-- The clamped move of `env4` under action 2 (East). -/
theorem env4_newPos : newPos env4 2 = (53, 50) := by
  show (max 3 (min ((100 : ℝ) - 3) (50 + 3)), max 3 (min ((100 : ℝ) - 3) (50 + 0)))
      = ((53 : ℝ), (50 : ℝ))
  rw [Prod.mk.injEq]
  constructor
  · rw [show (100 : ℝ) - 3 = 97 by norm_num, show (50 : ℝ) + 3 = 53 by norm_num,
      min_eq_right (by norm_num), max_eq_right (by norm_num)]
  · rw [show (100 : ℝ) - 3 = 97 by norm_num, show (50 : ℝ) + 0 = 50 by norm_num,
      min_eq_right (by norm_num), max_eq_right (by norm_num)]

/-- The algae of `env4` is out of reach of the step. -/
theorem env4_not_lt : ¬ distR 53 50 90 50 < 5 := by
  unfold distR
  rw [Real.sqrt_lt' (by norm_num : (0 : ℝ) < 5)]
  norm_num

/-- On `env4`, action 2 eats nothing. -/
theorem env4_eaten : eatenList env4 2 = [] := by
  unfold eatenList eatenAt
  rw [env4_newPos, show env4.algae = [((90 : ℝ), (50 : ℝ))] from rfl]
  simp only [List.filter_cons, List.filter_nil]
  rw [if_neg (by simp only [decide_eq_true_eq]; exact env4_not_lt)]

/-- On `env4`, the algae survives the step. -/
theorem env4_after : (step env4 2).env.algae = [((90 : ℝ), (50 : ℝ))] := by
  rw [step_env_algae]
  unfold algaeAfter
  rw [env4_newPos, show env4.algae = [((90 : ℝ), (50 : ℝ))] from rfl]
  simp only [List.filter_cons, List.filter_nil]
  rw [if_pos (by
    simp only [Bool.not_eq_true', decide_eq_false_iff_not]
    exact env4_not_lt)]

/-- Witness for C4 on `env4` with action 2. -/
theorem c4_shaping_reward_witness :
    (eatenList env4 2 = [] ∧ (step env4 2).env.algae ≠ [])
    ∧ ((step env4 2).reward
        = 0.5 * ((get_nearest_algae_info env4).1 - (get_nearest_algae_info (step env4 2).env).1)
          - 0.1
      ∧ (∀ p ∈ env4.algae,
          (get_nearest_algae_info env4).1 ≤ distR env4.agent_x env4.agent_y p.1 p.2)
      ∧ (∃ p ∈ env4.algae,
          (get_nearest_algae_info env4).1 = distR env4.agent_x env4.agent_y p.1 p.2)) :=
  ⟨⟨env4_eaten, by rw [env4_after]; simp⟩,
   c4_shaping_reward env4 2 env4_eaten (by rw [env4_after]; simp)⟩

/-! ### Claim theorems: movement vectors and action indexing -/

/-- C9 counterexample: with the default `max_speed = 3`, direction 1
(Northeast) does not have the same magnitude as direction 0 (North), and
its per-axis component `3 * 0.707` is not `3 * sqrt 2 / 2`: the 8 movement
vectors are not constant-magnitude. -/
theorem c9_counterexample :
    Real.sqrt ((dirOf 3 1).1 ^ 2 + (dirOf 3 1).2 ^ 2)
      ≠ Real.sqrt ((dirOf 3 0).1 ^ 2 + (dirOf 3 0).2 ^ 2)
    ∧ (dirOf 3 1).1 ≠ 3 * Real.sqrt 2 / 2 := by
  have h1 : dirOf 3 1 = ((3 : ℝ) * 0.707, (3 : ℝ) * 0.707) := rfl
  have h0 : dirOf 3 0 = ((0 : ℝ), (3 : ℝ)) := rfl
  constructor
  · rw [h1, h0]
    exact ne_of_lt (Real.sqrt_lt_sqrt (by norm_num) (by norm_num))
  · rw [h1]
    intro heq
    have hs : Real.sqrt 2 = 1.414 := by
      have hfst : (((3 : ℝ) * 0.707, (3 : ℝ) * 0.707)).1 = (2.121 : ℝ) := by norm_num
      rw [hfst] at heq
      linarith
    have h2 : Real.sqrt 2 ^ 2 = 2 := Real.sq_sqrt (by norm_num)
    rw [hs] at h2
    norm_num at h2

/-- C9 (amended): cardinal directions (even indices) have magnitude exactly
`max_speed`; diagonal directions (odd indices) move exactly
`max_speed * 0.707` per axis — the source's decimal approximation of
`max_speed * sqrt 2 / 2` — giving magnitude `max_speed * 0.707 * sqrt 2`,
which is strictly less than `max_speed`: movement magnitude is only
approximately constant across the 8 directions. -/
theorem c9_magnitudes (ms : ℝ) (h : 0 < ms) :
    (∀ a : Fin 8, a.val % 2 = 0 → Real.sqrt ((dirOf ms a).1 ^ 2 + (dirOf ms a).2 ^ 2) = ms)
    ∧ (∀ a : Fin 8, a.val % 2 = 1 →
        Real.sqrt ((dirOf ms a).1 ^ 2 + (dirOf ms a).2 ^ 2) = ms * 0.707 * Real.sqrt 2
        ∧ Real.sqrt ((dirOf ms a).1 ^ 2 + (dirOf ms a).2 ^ 2) < ms) := by
  have hms : (0 : ℝ) ≤ ms := h.le
  have hmag : Real.sqrt ((ms * 0.707) ^ 2 * 2) = ms * 0.707 * Real.sqrt 2 := by
    rw [Real.sqrt_mul (sq_nonneg _) 2, Real.sqrt_sq (by positivity)]
  have hsq1 : Real.sqrt ((0.999698 : ℝ)) = 0.707 * Real.sqrt 2 := by
    rw [show (0.999698 : ℝ) = 0.707 ^ 2 * 2 by norm_num,
      Real.sqrt_mul (by norm_num) 2, Real.sqrt_sq (by norm_num)]
  have hlt1 : (0.707 : ℝ) * Real.sqrt 2 < 1 := by
    rw [← hsq1, Real.sqrt_lt' (by norm_num : (0 : ℝ) < 1)]
    norm_num
  have hlt : ms * 0.707 * Real.sqrt 2 < ms := by
    calc ms * 0.707 * Real.sqrt 2 = ms * (0.707 * Real.sqrt 2) := by ring
    _ < ms * 1 := mul_lt_mul_of_pos_left hlt1 h
    _ = ms := by ring
  have heven : ∀ x y : ℝ, x ^ 2 + y ^ 2 = ms ^ 2 → Real.sqrt (x ^ 2 + y ^ 2) = ms := by
    intro x y hxy
    rw [hxy, Real.sqrt_sq hms]
  have hodd : ∀ x y : ℝ, x ^ 2 + y ^ 2 = (ms * 0.707) ^ 2 * 2 →
      Real.sqrt (x ^ 2 + y ^ 2) = ms * 0.707 * Real.sqrt 2
      ∧ Real.sqrt (x ^ 2 + y ^ 2) < ms := by
    intro x y hxy
    rw [hxy, hmag]
    exact ⟨rfl, hlt⟩
  constructor
  · intro a ha
    have h8 := a.isLt
    have hv : a.val = 0 ∨ a.val = 2 ∨ a.val = 4 ∨ a.val = 6 := by omega
    rcases hv with hval | hval | hval | hval
    · have hd : dirOf ms a = ((0 : ℝ), ms) := by unfold dirOf; rw [hval]; rfl
      rw [hd]
      exact heven 0 ms (by ring)
    · have hd : dirOf ms a = (ms, (0 : ℝ)) := by unfold dirOf; rw [hval]; rfl
      rw [hd]
      exact heven ms 0 (by ring)
    · have hd : dirOf ms a = ((0 : ℝ), -ms) := by unfold dirOf; rw [hval]; rfl
      rw [hd]
      exact heven 0 (-ms) (by ring)
    · have hd : dirOf ms a = (-ms, (0 : ℝ)) := by unfold dirOf; rw [hval]; rfl
      rw [hd]
      exact heven (-ms) 0 (by ring)
  · intro a ha
    have h8 := a.isLt
    have hv : a.val = 1 ∨ a.val = 3 ∨ a.val = 5 ∨ a.val = 7 := by omega
    rcases hv with hval | hval | hval | hval
    · have hd : dirOf ms a = (ms * 0.707, ms * 0.707) := by unfold dirOf; rw [hval]; rfl
      rw [hd]
      exact hodd (ms * 0.707) (ms * 0.707) (by ring)
    · have hd : dirOf ms a = (ms * 0.707, -(ms * 0.707)) := by unfold dirOf; rw [hval]; rfl
      rw [hd]
      exact hodd (ms * 0.707) (-(ms * 0.707)) (by ring)
    · have hd : dirOf ms a = (-(ms * 0.707), -(ms * 0.707)) := by unfold dirOf; rw [hval]; rfl
      rw [hd]
      exact hodd (-(ms * 0.707)) (-(ms * 0.707)) (by ring)
    · have hd : dirOf ms a = (-(ms * 0.707), ms * 0.707) := by unfold dirOf; rw [hval]; rfl
      rw [hd]
      exact hodd (-(ms * 0.707)) (ms * 0.707) (by ring)

/-- Witness for C9 (amended) at `max_speed = 3`, actions 0 and 1. -/
theorem c9_magnitudes_witness :
    ((0 : ℝ) < 3 ∧ (0 : Fin 8).val % 2 = 0 ∧ (1 : Fin 8).val % 2 = 1)
    ∧ Real.sqrt ((dirOf 3 0).1 ^ 2 + (dirOf 3 0).2 ^ 2) = 3
    ∧ (Real.sqrt ((dirOf 3 1).1 ^ 2 + (dirOf 3 1).2 ^ 2) = 3 * 0.707 * Real.sqrt 2
      ∧ Real.sqrt ((dirOf 3 1).1 ^ 2 + (dirOf 3 1).2 ^ 2) < 3) :=
  ⟨⟨by norm_num, by decide, by decide⟩,
   (c9_magnitudes 3 (by norm_num)).1 0 (by decide),
   (c9_magnitudes 3 (by norm_num)).2 1 (by decide)⟩

/-- C10 counterexample: the out-of-range action index `-1` is not rejected:
Python's negative list indexing silently maps it to the valid direction 7
(Northwest), so `step` succeeds on `-1` and behaves exactly like action 7. -/
theorem c10_counterexample : stepZ env3 (-1) ≠ none ∧ stepZ env3 (-1) = stepZ env3 7 := by
  have h1 : stepZ env3 (-1) = some (stepWith env3 (-((3 : ℝ) * 0.707), (3 : ℝ) * 0.707)) := rfl
  refine ⟨?_, rfl⟩
  rw [h1]
  exact Option.some_ne_none _

/-- C10 (amended): `step` on a raw integer action index fails with Python's
`IndexError` (modelled as `none`) exactly when the index lies outside
`[-8, 7]`; indices in `[-8, -1]` are not rejected but are silently mapped,
by Python negative indexing, to the behaviour of the valid index
`action + 8`. -/
theorem c10_index_semantics (e : Env) (i : ℤ) :
    (stepZ e i = none ↔ i < -8 ∨ 7 < i)
    ∧ (-8 ≤ i → i ≤ -1 → stepZ e i = stepZ e (i + 8)) := by
  have hlen : (directions e.max_speed).length = 8 := rfl
  constructor
  · unfold stepZ pyGet?
    rw [Option.map_eq_none', hlen]
    split_ifs with hpos hneg
    · rw [List.getElem?_eq_none_iff, hlen]
      omega
    · rw [List.getElem?_eq_none_iff, hlen]
      omega
    · exact ⟨fun _ => by omega, fun _ => rfl⟩
  · intro hlo hhi
    interval_cases i <;> rfl

/-- Witness for C10 (amended) on `env3` at index `-1`. -/
theorem c10_index_semantics_witness :
    ((-8 : ℤ) ≤ -1 ∧ (-1 : ℤ) ≤ -1)
    ∧ (stepZ env3 (-1) = none ↔ (-1 : ℤ) < -8 ∨ 7 < (-1 : ℤ))
    ∧ stepZ env3 (-1) = stepZ env3 (-1 + 8) :=
  ⟨⟨by norm_num, by norm_num⟩, (c10_index_semantics env3 (-1)).1,
   (c10_index_semantics env3 (-1)).2 (by norm_num) (by norm_num)⟩

end

end ThinkingBlue
